import Mathlib

set_option maxRecDepth 8000

/-!
Verification development for the fourier-visualizer repository.

This file gives a shallow embedding of the numeric core of `src/App.jsx`
(the waveform model, the Fourier-coefficient functions, the sampler, the
series evaluator, the equation formatter and the SVG coordinate mapper),
and proves the specification claims about it.

Modelling conventions:
* JavaScript numbers are modelled exactly, over an arbitrary linear ordered
  field `α` with a floor function; concrete evaluations instantiate `α := ℚ`.
* `MathPI` is the exact rational value of the IEEE-754 double `Math.PI`.
* `Math.sin` is passed explicitly as a function parameter `msin` wherever the
  source calls it (no claim depends on properties of sine itself).
* The JavaScript `%` operator (truncated remainder) is `jsMod`;
  `Math.round x = ⌊x + 1/2⌋` is Mathlib's `round`.
-/

section Defs

variable {α : Type} [LinearOrderedField α] [FloorRing α]

/-- Exact rational value of the IEEE-754 double `Math.PI`. -/
def MathPI : α := 884279719003555 / 281474976710656

/-- Truncation toward zero, the integer part used by the JavaScript `%` operator. -/
def jsTrunc (q : α) : ℤ := if 0 ≤ q then ⌊q⌋ else ⌈q⌉

/-- JavaScript remainder `a % b`, namely `a - b * trunc (a / b)`. -/
def jsMod (a b : α) : α := a - b * (jsTrunc (a / b) : α)

/-- Phase reduction `((x % (2 * Math.PI)) + 2 * Math.PI) % (2 * Math.PI)`,
inlined in each waveform evaluator of `WAVE_TYPES` (App.jsx lines 18, 25, 38). -/
def reducePhase (x : α) : α :=
  jsMod (jsMod x (2 * MathPI) + 2 * MathPI) (2 * MathPI)

/-- Coefficient function of `WAVE_TYPES.square` (App.jsx line 17). -/
def squareCoefficients (n : ℕ) : α :=
  if n % 2 = 1 then 4 / (MathPI * n) else 0

/-- Evaluator of `WAVE_TYPES.square` (App.jsx line 18). -/
def squareFn (x : α) : α :=
  if reducePhase x < MathPI then 1 else -1

/-- Coefficient function of `WAVE_TYPES.sawtooth` (App.jsx line 23). -/
def sawtoothCoefficients (n : ℕ) : α :=
  2 / (MathPI * n) * (-1 : α) ^ (n + 1)

/-- Evaluator of `WAVE_TYPES.sawtooth` (App.jsx lines 24-27): `p / π - 1`
for the reduced phase `p`. -/
def sawtoothFn (x : α) : α := reducePhase x / MathPI - 1

/-- Coefficient function of `WAVE_TYPES.triangle` (App.jsx lines 32-36). -/
def triangleCoefficients (n : ℕ) : α :=
  if n % 2 = 0 then 0
  else 8 / (MathPI * MathPI * n * n) * (-1 : α) ^ ((n - 1) / 2)

/-- Evaluator of `WAVE_TYPES.triangle` (App.jsx lines 37-42); `reducePhase x`
is the `const p` of the source. -/
def triangleFn (x : α) : α :=
  if reducePhase x < MathPI / 2 then 2 * reducePhase x / MathPI
  else if reducePhase x < 3 * MathPI / 2 then 2 - 2 * reducePhase x / MathPI
  else 2 * reducePhase x / MathPI - 4

/-- Keys of the `WAVE_TYPES` record. -/
inductive WaveKey
  | square
  | sawtooth
  | triangle
deriving DecidableEq

/-- One entry of `WAVE_TYPES` (App.jsx lines 13-44). -/
structure WaveType (α : Type) where
  name : String
  formula : String
  coefficients : ℕ → α
  fn : α → α

/-- The `WAVE_TYPES` table (App.jsx lines 13-44). -/
def WAVE_TYPES : WaveKey → WaveType α
  | .square =>
    { name := "Square Wave"
      formula := "f(x) = (4/π) Σ [sin((2k-1)x) / (2k-1)]  for k = 1, 2, 3, …"
      coefficients := squareCoefficients
      fn := squareFn }
  | .sawtooth =>
    { name := "Sawtooth Wave"
      formula := "f(x) = (2/π) Σ [(-1)^(n+1) sin(nx) / n]  for n = 1, 2, 3, …"
      coefficients := sawtoothCoefficients
      fn := sawtoothFn }
  | .triangle =>
    { name := "Triangle Wave"
      formula := "f(x) = (8/π²) Σ [(-1)^k sin((2k+1)x) / (2k+1)²]  for k = 0, 1, 2, …"
      coefficients := triangleCoefficients
      fn := triangleFn }

/-- Sample-count constant `NUM_POINTS` (App.jsx line 46). -/
def NUM_POINTS : ℕ := 500

/-- The function `generateXValues` (App.jsx lines 48-54): the shared x-grid
`(i / NUM_POINTS) * 2 * Math.PI` for `i = 0 .. NUM_POINTS` inclusive. -/
def generateXValues : List α :=
  (List.range (NUM_POINTS + 1)).map fun i : ℕ => (i : α) / (NUM_POINTS : α) * 2 * MathPI

/-- The shared grid constant `X_VALUES` (App.jsx line 56). -/
def X_VALUES : List α := generateXValues

end Defs

section DefsTwo

variable {α : Type} [LinearOrderedField α] [FloorRing α]

/-- Interaction state: the five amplitudes plus the selected waveform key
(App.jsx lines 152-153). -/
structure AppState (α : Type) where
  amplitudes : List α
  waveType : WaveKey

/-- The inline clamp `Math.min(2, Math.max(-2, c))` of `showIdeal`
(App.jsx line 187). -/
def clampCoeff (c : α) : α := min 2 (max (-2) c)

/-- The inline rounding `Math.round (v * 1000) / 1000` of `showIdeal`
(App.jsx line 187). -/
def round3 (c : α) : α := ((round (c * 1000) : ℤ) : α) / 1000

/-- The `showIdeal` handler (App.jsx lines 184-189): replaces the amplitudes
with the clamped, 3-decimal-rounded ideal coefficients of the selected wave;
the selected waveform key is not touched. -/
def showIdeal (s : AppState α) : AppState α :=
  { s with
    amplitudes :=
      [1, 2, 3, 4, 5].map fun n =>
        round3 (clampCoeff ((WAVE_TYPES s.waveType).coefficients n)) }

/-- The `resetAll` handler (App.jsx line 182). -/
def resetAll (s : AppState α) : AppState α :=
  { s with amplitudes := [0, 0, 0, 0, 0] }

/-- The `activeCount` display value (App.jsx line 172). -/
def activeCount (amps : List α) : ℕ :=
  (amps.filter fun a => 0.001 < |a|).length

/-- The `COLORS` constant (App.jsx line 3). -/
def COLORS : List String :=
  ["#E63946", "#457B9D", "#2A9D8F", "#E76F51", "#7B2D8E"]

/-- A rendered dataset: stroke attributes plus sample points (the objects fed
to the `Graph` component). -/
structure Dataset (α : Type) where
  color : String
  width : α
  opacity : Option α := none
  dash : Option String := none
  data : List (α × α)

/-- One legend entry. -/
structure LegendItem where
  color : String
  label : String
deriving DecidableEq

/-- The `individualDatasets` computation (App.jsx lines 192-201): one dataset
per harmonic whose amplitude passes `¬ (|amp| < 0.001)`; `.map` to
null-or-object followed by `.filter(Boolean)` is `List.filterMap`. -/
def individualDatasets (msin : α → α) (amps : List α) : List (Dataset α) :=
  amps.enum.filterMap fun q : ℕ × α =>
    if |q.2| < 0.001 then none
    else some
      { color := COLORS.getD q.1 ""
        width := 2
        opacity := some 0.9
        data := X_VALUES.map fun x => (x, q.2 * msin ((q.1 + 1 : α) * x)) }

/-- The `individualLegend` computation (App.jsx lines 203-205): one entry per
harmonic with `|amp| > 0.001`. -/
def individualLegend (amps : List α) : List LegendItem :=
  amps.enum.filterMap fun q : ℕ × α =>
    if 0.001 < |q.2| then
      some { color := COLORS.getD q.1 "", label := "n=" ++ toString (q.1 + 1) }
    else none

/-- The `sumData` computation (App.jsx lines 208-214): for each grid point the
running `forEach` accumulation of `amp * Math.sin ((i + 1) * x)`. -/
def sumData (msin : α → α) (amps : List α) : List (α × α) :=
  X_VALUES.map fun x =>
    (x, amps.enum.foldl (fun (y : α) (q : ℕ × α) => y + q.2 * msin ((q.1 + 1 : α) * x)) 0)

/-- The dataset list handed to the sum chart (App.jsx lines 491-493): always a
single dataset wrapping `sumData`. -/
def sumChartDatasets (msin : α → α) (amps : List α) : List (Dataset α) :=
  [{ color := "#58A6FF", width := 2.5, data := sumData msin amps }]

end DefsTwo

section DefsThree

variable {α : Type} [LinearOrderedField α] [FloorRing α]

/-- One element of `eqParts` (App.jsx line 227). -/
structure EqPart where
  sign : String
  coeff : String
  sinPart : String

/-- Concatenation of a list of strings, the embedding of `Array.join("")`
(App.jsx line 238). -/
def joinAll : List String → String
  | [] => ""
  | s :: t => s ++ joinAll t

/-- JavaScript `Number.toFixed(2)` on exact values: round to the nearest
hundredth (ties toward plus infinity) and print with exactly two decimals.
The source only applies it to `Math.abs(amp)`, a non-negative value. -/
def toFixed2 (q : α) : String :=
  (if round (q * 100) < 0 then "-" else "") ++
    toString ((round (q * 100) : ℤ).natAbs / 100) ++ "." ++
    (if (round (q * 100) : ℤ).natAbs % 100 < 10 then
      "0" ++ toString ((round (q * 100) : ℤ).natAbs % 100)
    else toString ((round (q * 100) : ℤ).natAbs % 100))

/-- The `eqParts` computation (App.jsx lines 220-229): a sign, coefficient
string and `sin(nx)` body per harmonic passing `¬ (|amp| < 0.001)`. -/
def eqParts (amps : List α) : List EqPart :=
  amps.enum.filterMap fun q : ℕ × α =>
    if |q.2| < 0.001 then none
    else some
      { sign := if q.2 < 0 then "−" else "+"
        coeff := if |q.2| = 1 then "" else toFixed2 (|q.2|)
        sinPart :=
          if q.1 + 1 = 1 then "sin(x)" else "sin(" ++ toString (q.1 + 1) ++ "x)" }

/-- The `equationStr` computation (App.jsx lines 231-239): `"f(x) = 0"` when no
part qualifies, otherwise `"f(x) = "` followed by the joined rendered parts,
the first part with a bare leading sign (`"−"` or nothing), later parts
prefixed by a spaced sign. -/
def equationStr (amps : List α) : String :=
  if 0 < (eqParts amps).length then
    "f(x) = " ++
      joinAll ((eqParts amps).enum.map fun q =>
        (if q.1 = 0 then (if q.2.sign = "−" then "−" else "") else " " ++ q.2.sign ++ " ") ++
          q.2.coeff ++ q.2.sinPart)
  else "f(x) = 0"

/-- Signed term body as the specification describes it: optional coefficient
factor (omitted exactly when the magnitude is 1) followed by the sine symbol. -/
def specTermBody (i : ℕ) (a : α) : String :=
  (if |a| = 1 then "" else toFixed2 (|a|)) ++
    (if i + 1 = 1 then "sin(x)" else "sin(" ++ toString (i + 1) ++ "x)")

/-- Rendering of a qualifying term list as the specification describes it:
empty list gives `"f(x) = 0"`; otherwise the first term carries a bare leading
sign (`"−"` or nothing, never a leading `"+"`) and every later term is joined
with `" + "` or `" − "`. -/
def specFormat : List (ℕ × α) → String
  | [] => "f(x) = 0"
  | q :: rest =>
    "f(x) = " ++ ((if q.2 < 0 then "−" else "") ++ specTermBody q.1 q.2) ++
      joinAll (rest.map fun p : ℕ × α =>
        (if p.2 < 0 then " − " else " + ") ++ specTermBody p.1 p.2)

/-- Equation formatter transcribed from the specification's words (with the
amended inclusion threshold `0.001 ≤ |a|` forced by the code): one signed term
per qualifying harmonic in ascending harmonic order, coefficient factor
omitted exactly at magnitude 1, rendered by `specFormat`. Used to state the
refinement claim about `equationStr`. -/
def specEquationStr (amps : List α) : String :=
  specFormat (amps.enum.filter fun q : ℕ × α => (0.001 : α) ≤ |q.2|)

end DefsThree

section DefsFour

variable {α : Type} [LinearOrderedField α] [FloorRing α]

/-- The fixed margins of the `Graph` component (App.jsx line 59). -/
structure Padding (α : Type) where
  top : α
  right : α
  bottom : α
  left : α

/-- `padding = { top: 40, right: 24, bottom: 44, left: 52 }` (App.jsx line 59). -/
def padding : Padding α := ⟨40, 24, 44, 52⟩

/-- Plot width `width - padding.left - padding.right` (App.jsx line 60). -/
def plotW (width : α) : α := width - (padding (α := α)).left - (padding (α := α)).right

/-- Plot height `height - padding.top - padding.bottom` (App.jsx line 61). -/
def plotH (height : α) : α := height - (padding (α := α)).top - (padding (α := α)).bottom

/-- `toSVGX` (App.jsx line 64). -/
def toSVGX (width x : α) : α :=
  (padding (α := α)).left + x / (2 * MathPI) * plotW width

/-- `toSVGY` (App.jsx line 65). -/
def toSVGY (height yMin yMax y : α) : α :=
  (padding (α := α)).top + (yMax - y) / (yMax - yMin) * plotH height

/-- Pixel row of a data point in path building (App.jsx line 116): the y value
is clamped to `[yMin, yMax]` before `toSVGY` is applied. -/
def pathY (height yMin yMax y : α) : α :=
  toSVGY height yMin yMax (max yMin (min yMax y))

/-- The fixed vertical gridline positions `xTicks` (App.jsx line 67). -/
def xTicks : List α := [0, MathPI / 2, MathPI, 3 * MathPI / 2, 2 * MathPI]

/-- The labels of the vertical gridlines (App.jsx line 68). -/
def xLabels : List String := ["0", "π/2", "π", "3π/2", "2π"]

/-- The display rounding `Math.round (v * 10) / 10` applied to each pushed
y-tick (App.jsx line 71). -/
def round1 (v : α) : α := ((round (v * 10) : ℤ) : α) / 10

/-- Body of the y-tick loop `for (v = yMin; v <= yMax; v += 0.5)` (App.jsx
lines 69-72), recursing on a fuel argument. The loop runs
`⌊2 * (yMax - yMin)⌋ + 1` times, so any fuel beyond that reproduces it
exactly; `yTicks` supplies fuel 1000, enough for every range of width at most
499.5 and in particular for the fixed `[-2.2, 2.2]` range of all charts. -/
def yTicksAux (yMax : α) : ℕ → α → List α
  | 0, _ => []
  | fuel + 1, v => if v ≤ yMax then round1 v :: yTicksAux yMax fuel (v + 0.5) else []

/-- The `yTicks` list (App.jsx lines 69-72). -/
def yTicks (yMin yMax : α) : List α := yTicksAux yMax 1000 yMin

/-- The y-ticks selected for labels by `yTicks.filter (v => v === Math.round v)`
(App.jsx line 104). -/
def yLabelTicks (yMin yMax : α) : List α :=
  (yTicks yMin yMax).filter fun v => v = ((round v : ℤ) : α)

end DefsFour

/-! ### Properties of the phase reduction -/

section PhaseLemmas

variable {α : Type} [LinearOrderedField α] [FloorRing α]

lemma MathPI_pos : (0 : α) < MathPI := by unfold MathPI; positivity

lemma twoPI_pos : (0 : α) < 2 * MathPI := by
  have := MathPI_pos (α := α); linarith

lemma jsMod_nonneg_of_nonneg {a b : α} (ha : 0 ≤ a) (hb : 0 < b) : 0 ≤ jsMod a b := by
  unfold jsMod jsTrunc
  rw [if_pos (div_nonneg ha hb.le)]
  have h1 : b * ((⌊a / b⌋ : ℤ) : α) ≤ b * (a / b) :=
    mul_le_mul_of_nonneg_left (Int.floor_le _) hb.le
  have h2 : b * (a / b) = a := by field_simp
  linarith

lemma jsMod_lt_of_nonneg {a b : α} (ha : 0 ≤ a) (hb : 0 < b) : jsMod a b < b := by
  unfold jsMod jsTrunc
  rw [if_pos (div_nonneg ha hb.le)]
  have h1 : a / b < (⌊a / b⌋ : α) + 1 := Int.lt_floor_add_one _
  have h2 : a < b * ((⌊a / b⌋ : α) + 1) := by
    calc a = b * (a / b) := by field_simp
    _ < b * ((⌊a / b⌋ : α) + 1) := by exact mul_lt_mul_of_pos_left h1 hb
  nlinarith

lemma jsMod_bounds_of_neg {a b : α} (ha : a < 0) (hb : 0 < b) :
    -b < jsMod a b ∧ jsMod a b ≤ 0 := by
  unfold jsMod jsTrunc
  rw [if_neg (not_le.mpr (div_neg_of_neg_of_pos ha hb))]
  have h1 : a / b ≤ ((⌈a / b⌉ : ℤ) : α) := Int.le_ceil _
  have h2 : ((⌈a / b⌉ : ℤ) : α) < a / b + 1 := Int.ceil_lt_add_one _
  have h3 : b * (a / b) = a := by field_simp
  constructor
  · have := mul_lt_mul_of_pos_left h2 hb
    nlinarith
  · have := mul_le_mul_of_nonneg_left h1 hb.le
    nlinarith

lemma jsMod_gt_neg (a : α) {b : α} (hb : 0 < b) : -b < jsMod a b := by
  rcases le_or_lt 0 a with ha | ha
  · have := jsMod_nonneg_of_nonneg ha hb; linarith
  · exact (jsMod_bounds_of_neg ha hb).1

lemma reducePhase_nonneg (x : α) : 0 ≤ reducePhase x := by
  unfold reducePhase
  have h := jsMod_gt_neg x (twoPI_pos (α := α))
  exact jsMod_nonneg_of_nonneg (by linarith) (twoPI_pos (α := α))

lemma reducePhase_lt (x : α) : reducePhase x < 2 * MathPI := by
  unfold reducePhase
  have h := jsMod_gt_neg x (twoPI_pos (α := α))
  exact jsMod_lt_of_nonneg (by linarith) (twoPI_pos (α := α))

lemma reducePhase_int_sub (x : α) :
    ∃ k : ℤ, reducePhase x = x - 2 * MathPI * (k : α) := by
  refine ⟨jsTrunc (x / (2 * MathPI)) +
    jsTrunc ((jsMod x (2 * MathPI) + 2 * MathPI) / (2 * MathPI)) - 1, ?_⟩
  unfold reducePhase jsMod
  push_cast
  ring

lemma reducePhase_unique {x p : α} (h0 : 0 ≤ p) (h2 : p < 2 * MathPI)
    (hk : ∃ k : ℤ, p = x - 2 * MathPI * (k : α)) : reducePhase x = p := by
  obtain ⟨k, hk⟩ := hk
  obtain ⟨m, hm⟩ := reducePhase_int_sub x
  have h0' := reducePhase_nonneg x
  have h2' := reducePhase_lt x
  have h2p : (0 : α) < 2 * MathPI := twoPI_pos
  have hd : reducePhase x - p = 2 * MathPI * ((k - m : ℤ) : α) := by
    push_cast
    rw [hm, hk]; ring
  have hcast : |((k - m : ℤ) : α)| < 1 := by
    have habs : |reducePhase x - p| < 2 * MathPI := by
      rw [abs_sub_lt_iff]; constructor <;> linarith
    rw [hd, abs_mul, abs_of_pos h2p] at habs
    nlinarith [abs_nonneg (((k - m : ℤ) : α))]
  have hkm : k - m = 0 := by
    have : ((|k - m| : ℤ) : α) < ((1 : ℤ) : α) := by
      rw [Int.cast_abs]; exact_mod_cast hcast
    exact Int.abs_lt_one_iff.mp (Int.cast_lt.mp this)
  have : ((k - m : ℤ) : α) = 0 := by rw [hkm]; exact Int.cast_zero
  rw [this, mul_zero] at hd
  linarith

lemma reducePhase_add (x : α) : reducePhase (x + 2 * MathPI) = reducePhase x := by
  apply reducePhase_unique (reducePhase_nonneg x) (reducePhase_lt x)
  obtain ⟨k, hk⟩ := reducePhase_int_sub x
  exact ⟨k + 1, by push_cast; rw [hk]; ring⟩

lemma reducePhase_eq_self {x : α} (h0 : 0 ≤ x) (h2 : x < 2 * MathPI) :
    reducePhase x = x :=
  reducePhase_unique h0 h2 ⟨0, by push_cast; ring⟩

end PhaseLemmas

/-! ### Waveform ranges and periodicity -/

section WaveLemmas

variable {α : Type} [LinearOrderedField α] [FloorRing α]

lemma squareFn_bounds (x : α) : -1 ≤ squareFn x ∧ squareFn x ≤ 1 := by
  unfold squareFn
  split <;> norm_num

lemma sawtoothFn_bounds (x : α) : -1 ≤ sawtoothFn x ∧ sawtoothFn x < 1 := by
  unfold sawtoothFn
  have h0 := reducePhase_nonneg x
  have h2 := reducePhase_lt x
  have hpi := MathPI_pos (α := α)
  constructor
  · have : 0 ≤ reducePhase x / MathPI := div_nonneg h0 hpi.le
    linarith
  · have : reducePhase x / MathPI < 2 := by
      rw [div_lt_iff hpi]; linarith
    linarith

lemma triangleFn_bounds (x : α) : -1 ≤ triangleFn x ∧ triangleFn x ≤ 1 := by
  unfold triangleFn
  have h0 := reducePhase_nonneg x
  have h2 := reducePhase_lt x
  have hpi := MathPI_pos (α := α)
  split
  · rename_i h
    have hl : 0 ≤ 2 * reducePhase x / MathPI := by positivity
    have hu : 2 * reducePhase x / MathPI < 1 := by
      rw [div_lt_iff hpi]; linarith
    constructor <;> linarith
  · rename_i h
    push_neg at h
    split
    · rename_i h'
      have hl : 1 ≤ 2 * reducePhase x / MathPI := by
        rw [le_div_iff hpi]; linarith
      have hu : 2 * reducePhase x / MathPI < 3 := by
        rw [div_lt_iff hpi]; linarith
      constructor <;> linarith
    · rename_i h'
      push_neg at h'
      have hl : 3 ≤ 2 * reducePhase x / MathPI := by
        rw [le_div_iff hpi]; linarith
      have hu : 2 * reducePhase x / MathPI < 4 := by
        rw [div_lt_iff hpi]; linarith
      constructor <;> linarith

lemma squareFn_at_zero : squareFn (0 : α) = 1 := by
  have hpi := MathPI_pos (α := α)
  unfold squareFn
  rw [reducePhase_eq_self le_rfl (by linarith)]
  rw [if_pos hpi]

lemma squareFn_at_pi : squareFn (MathPI : α) = -1 := by
  have hpi := MathPI_pos (α := α)
  unfold squareFn
  rw [reducePhase_eq_self hpi.le (by linarith)]
  rw [if_neg (lt_irrefl _)]

lemma sawtoothFn_at_zero : sawtoothFn (0 : α) = -1 := by
  have hpi := MathPI_pos (α := α)
  unfold sawtoothFn
  rw [reducePhase_eq_self le_rfl (by linarith), zero_div]
  ring

lemma triangleFn_at_half_pi : triangleFn (MathPI / 2 : α) = 1 := by
  have hpi := MathPI_pos (α := α)
  unfold triangleFn
  rw [reducePhase_eq_self (by linarith) (by linarith)]
  rw [if_neg (lt_irrefl _), if_pos (by linarith)]
  field_simp
  norm_num

lemma triangleFn_at_three_half_pi : triangleFn (3 * MathPI / 2 : α) = -1 := by
  have hpi := MathPI_pos (α := α)
  unfold triangleFn
  rw [reducePhase_eq_self (by linarith) (by linarith)]
  rw [if_neg (by linarith), if_neg (lt_irrefl _)]
  field_simp
  ring

end WaveLemmas

/-! ### Claims C4 and C5 -/

section ClaimC4C5

variable {α : Type} [LinearOrderedField α] [FloorRing α]

/-- C4 (amended): every output of the three waveform evaluators lies in
`[-1, 1]`; the square wave attains both endpoints (at phases `0` and `π`) and
the triangle wave attains both endpoints (at phases `π/2` and `3π/2`), but the
sawtooth — which ramps linearly from `-1` at reduced phase `0` toward `+1` at
phase `2π` — attains `-1` and stays strictly below `+1` for every input, so
its value set is `[-1, 1)` rather than all of `[-1, 1]`. -/
theorem c4_waveform_range :
    (∀ x : α, -1 ≤ squareFn x ∧ squareFn x ≤ 1) ∧
    squareFn (0 : α) = 1 ∧ squareFn (MathPI : α) = -1 ∧
    (∀ x : α, -1 ≤ triangleFn x ∧ triangleFn x ≤ 1) ∧
    triangleFn (MathPI / 2 : α) = 1 ∧ triangleFn (3 * MathPI / 2 : α) = -1 ∧
    (∀ x : α, -1 ≤ sawtoothFn x ∧ sawtoothFn x < 1) ∧
    sawtoothFn (0 : α) = -1 :=
  ⟨squareFn_bounds, squareFn_at_zero, squareFn_at_pi,
    triangleFn_bounds, triangleFn_at_half_pi, triangleFn_at_three_half_pi,
    sawtoothFn_bounds, sawtoothFn_at_zero⟩

/-- C4 counterexample: contrary to the claim, the sawtooth evaluator never
attains the value `+1`. -/
theorem c4_sawtooth_counterexample : ¬ ∃ x : ℚ, sawtoothFn x = 1 := by
  rintro ⟨x, hx⟩
  exact absurd hx (ne_of_lt (sawtoothFn_bounds x).2)

/-- C5 (confirmed): each of the three waveform evaluators is `2π`-periodic —
`evaluate (x + 2π) = evaluate x` for every `x`, negative inputs included —
and the phase reduction `((x % 2π) + 2π) % 2π` maps every input into
`[0, 2π)`; all the functions involved are total. -/
theorem c5_periodicity (w : WaveKey) (x : α) :
    (WAVE_TYPES w).fn (x + 2 * MathPI) = (WAVE_TYPES w).fn x ∧
    0 ≤ reducePhase x ∧ reducePhase x < 2 * MathPI := by
  refine ⟨?_, reducePhase_nonneg x, reducePhase_lt x⟩
  cases w <;>
    simp only [WAVE_TYPES, squareFn, sawtoothFn, triangleFn, reducePhase_add]

end ClaimC4C5

/-! ### Claims C2, C3 and C10 -/

/-- C2 (confirmed): for every harmonic `n` in `1..5` the three coefficient
functions take exactly the closed-form values the specification states —
square `4/(πn)` for odd `n` and `0` for even `n`; sawtooth
`(2/(πn))·(-1)^(n+1)`, positive at `n = 1`; triangle `0` for even `n` and of
magnitude `8/(π²n²)` with sign `(-1)^k` for odd `n = 2k+1`, positive at
`n = 1` and `n = 5`, negative at `n = 3`. -/
theorem c2_coefficient_values :
    (∀ n : ℕ, 1 ≤ n → n ≤ 5 →
      (n % 2 = 0 → squareCoefficients (α := ℚ) n = 0) ∧
      (n % 2 = 1 → squareCoefficients (α := ℚ) n = 4 / (MathPI * n)) ∧
      sawtoothCoefficients (α := ℚ) n = 2 / (MathPI * n) * (-1) ^ (n + 1) ∧
      (n % 2 = 0 → triangleCoefficients (α := ℚ) n = 0) ∧
      (n % 2 = 1 → |triangleCoefficients (α := ℚ) n| = 8 / (MathPI ^ 2 * n ^ 2) ∧
        triangleCoefficients (α := ℚ) n =
          (-1) ^ ((n - 1) / 2) * (8 / (MathPI ^ 2 * n ^ 2)))) ∧
    0 < sawtoothCoefficients (α := ℚ) 1 ∧
    sawtoothCoefficients (α := ℚ) 2 < 0 ∧
    0 < triangleCoefficients (α := ℚ) 1 ∧
    triangleCoefficients (α := ℚ) 3 < 0 ∧
    0 < triangleCoefficients (α := ℚ) 5 := by
  refine ⟨?_, by norm_num [sawtoothCoefficients, MathPI],
    by norm_num [sawtoothCoefficients, MathPI],
    by norm_num [triangleCoefficients, MathPI],
    by norm_num [triangleCoefficients, MathPI],
    by norm_num [triangleCoefficients, MathPI]⟩
  intro n h1 h5
  interval_cases n <;>
    norm_num [squareCoefficients, sawtoothCoefficients, triangleCoefficients, MathPI]

/-- C2 witness: the theorem applied at the concrete harmonic `n = 3`. -/
theorem c2_coefficient_values_witness :
    squareCoefficients (α := ℚ) 3 = 4 / (MathPI * (3 : ℕ)) :=
  (c2_coefficient_values.1 3 (by decide) (by decide)).2.1 (by decide)

/-- C3 (confirmed): `showIdeal` replaces each amplitude by the active wave's
coefficient clamped to `[-2, 2]` and rounded to three decimals, leaves the
selected waveform key unchanged, and for the square wave stores exactly
`[1.273, 0, 0.424, 0, 0.255]`. -/
theorem c3_show_ideal (s : AppState ℚ) :
    (showIdeal s).waveType = s.waveType ∧
    (showIdeal s).amplitudes =
      ([1, 2, 3, 4, 5].map fun n =>
        round3 (clampCoeff ((WAVE_TYPES s.waveType).coefficients n))) ∧
    (s.waveType = WaveKey.square →
      (showIdeal s).amplitudes = [1.273, 0, 0.424, 0, 0.255]) := by
  refine ⟨rfl, rfl, fun h => ?_⟩
  have : (showIdeal s).amplitudes =
      ([1, 2, 3, 4, 5].map fun n =>
        round3 (clampCoeff ((WAVE_TYPES WaveKey.square).coefficients n))) := by
    rw [← h]; rfl
  rw [this]
  with_unfolding_all decide

/-- C3 witness: `showIdeal` on a concrete square-wave state. -/
theorem c3_show_ideal_witness :
    (showIdeal (⟨[0, 0, 0, 0, 0], WaveKey.square⟩ : AppState ℚ)).amplitudes =
      [1.273, 0, 0.424, 0, 0.255] :=
  (c3_show_ideal ⟨[0, 0, 0, 0, 0], WaveKey.square⟩).2.2 rfl

/-- C10 (confirmed): every coefficient of every waveform at harmonics `1..5`
has magnitude at most `2` (and at most the square wave's `4/π` at `n = 1`,
the largest of them), so the clamp inside `showIdeal` is the identity there
and the stored amplitude is the exact coefficient rounded to three decimals. -/
theorem c10_clamp_noop (w : WaveKey) (n : ℕ) (h1 : 1 ≤ n) (h5 : n ≤ 5) :
    |(WAVE_TYPES (α := ℚ) w).coefficients n| ≤ 2 ∧
    |(WAVE_TYPES (α := ℚ) w).coefficients n| ≤
      |(WAVE_TYPES (α := ℚ) WaveKey.square).coefficients 1| ∧
    clampCoeff ((WAVE_TYPES (α := ℚ) w).coefficients n) =
      (WAVE_TYPES (α := ℚ) w).coefficients n ∧
    round3 (clampCoeff ((WAVE_TYPES (α := ℚ) w).coefficients n)) =
      round3 ((WAVE_TYPES (α := ℚ) w).coefficients n) := by
  cases w <;> interval_cases n <;>
    refine ⟨by norm_num [WAVE_TYPES, squareCoefficients, sawtoothCoefficients,
        triangleCoefficients, MathPI, abs_div, abs_of_pos],
      by norm_num [WAVE_TYPES, squareCoefficients, sawtoothCoefficients,
        triangleCoefficients, MathPI, abs_div, abs_of_pos],
      by norm_num [WAVE_TYPES, clampCoeff, min_def, max_def, squareCoefficients,
        sawtoothCoefficients, triangleCoefficients, MathPI],
      by norm_num [WAVE_TYPES, clampCoeff, min_def, max_def, squareCoefficients,
        sawtoothCoefficients, triangleCoefficients, MathPI]⟩

/-- C10 witness: the theorem applied at the square wave's fundamental. -/
theorem c10_clamp_noop_witness :
    clampCoeff ((WAVE_TYPES (α := ℚ) WaveKey.square).coefficients 1) =
      (WAVE_TYPES (α := ℚ) WaveKey.square).coefficients 1 :=
  (c10_clamp_noop WaveKey.square 1 (by decide) (by decide)).2.2.1

/-! ### Claims C8 and C9 -/

section ClaimC8

variable {α : Type} [LinearOrderedField α] [FloorRing α]

/-- C8 (confirmed): the coordinate maps are the stated linear maps —
`toSVGX 0 = left`, `toSVGX (2π) = left + plotW`, `toSVGY yMax = top`,
`toSVGY yMin = top + plotH` — path building clamps the y value to
`[yMin, yMax]` before mapping, and with the fixed range `[-2.2, 2.2]` an
input of `3` lands on the same pixel row as `2.2`. -/
theorem c8_coordinate_map (width height yMin yMax : α) (h : yMin < yMax) :
    toSVGX width 0 = (padding (α := α)).left ∧
    toSVGX width (2 * MathPI) = (padding (α := α)).left + plotW width ∧
    toSVGY height yMin yMax yMax = (padding (α := α)).top ∧
    toSVGY height yMin yMax yMin = (padding (α := α)).top + plotH height ∧
    (∀ y : α, pathY height yMin yMax y = toSVGY height yMin yMax (max yMin (min yMax y))) ∧
    pathY height (-2.2) 2.2 3 = pathY height (-2.2) 2.2 2.2 := by
  have hpi : (0 : α) < 2 * MathPI := twoPI_pos
  refine ⟨?_, ?_, ?_, ?_, fun y => rfl, ?_⟩
  · rw [toSVGX, zero_div, zero_mul, add_zero]
  · rw [toSVGX, div_self hpi.ne', one_mul]
  · rw [toSVGY, sub_self, zero_div, zero_mul, add_zero]
  · rw [toSVGY, div_self (sub_ne_zero.mpr h.ne'), one_mul]
  · have h1 : max (-2.2 : α) (min 2.2 3) = max (-2.2 : α) (min 2.2 2.2) := by
      rw [min_eq_left (by norm_num : (2.2 : α) ≤ 3), min_self]
    rw [pathY, pathY, h1]

/-- C8 witness: the theorem applied at a concrete chart geometry. -/
theorem c8_coordinate_map_witness :
    toSVGY (220 : ℚ) (-2.2) 2.2 2.2 = (padding (α := ℚ)).top :=
  (c8_coordinate_map 800 220 (-2.2) 2.2 (by norm_num)).2.2.1

end ClaimC8

/-- C9 (the claim is the intended behaviour, the code misses it): with the
fixed y-range `[-2.2, 2.2]` used by every chart, the y-tick loop starts at
`yMin = -2.2` and steps by `0.5`, so the produced gridlines sit at
`-2.2, -1.7, -1.2, -0.7, -0.2, 0.3, 0.8, 1.3, 1.8` — no integer value among
them — and the integer-only label filter therefore selects nothing: no y-axis
label is rendered at all, contradicting the claimed labelled gridlines at
`-2, -1, 0, 1, 2`. The vertical gridlines and labels are as claimed. -/
theorem c9_ytick_evaluation :
    yTicks (α := ℚ) (-2.2) 2.2 =
      [-2.2, -1.7, -1.2, -0.7, -0.2, 0.3, 0.8, 1.3, 1.8] ∧
    yLabelTicks (α := ℚ) (-2.2) 2.2 = [] ∧
    ((-2 : ℚ) ∉ yTicks (α := ℚ) (-2.2) 2.2 ∧
      (-1 : ℚ) ∉ yTicks (α := ℚ) (-2.2) 2.2 ∧
      (0 : ℚ) ∉ yTicks (α := ℚ) (-2.2) 2.2 ∧
      (1 : ℚ) ∉ yTicks (α := ℚ) (-2.2) 2.2 ∧
      (2 : ℚ) ∉ yTicks (α := ℚ) (-2.2) 2.2) ∧
    xTicks (α := ℚ) = [0, MathPI / 2, MathPI, 3 * MathPI / 2, 2 * MathPI] ∧
    xLabels = ["0", "π/2", "π", "3π/2", "2π"] := by
  refine ⟨by with_unfolding_all decide, by with_unfolding_all decide,
    ⟨by with_unfolding_all decide, by with_unfolding_all decide,
      by with_unfolding_all decide, by with_unfolding_all decide,
      by with_unfolding_all decide⟩, rfl, rfl⟩

/-! ### List lemmas shared by C1, C6 and C7 -/

section ListLemmas

variable {β γ : Type}

lemma filterMap_ite_none (p : β → Prop) [DecidablePred p] (f : β → γ) (l : List β) :
    (l.filterMap fun b => if p b then none else some (f b)) =
      (l.filter fun b => ¬ p b).map f := by
  induction l with
  | nil => rfl
  | cons a t ih =>
    by_cases h : p a <;> simp [List.filterMap_cons, List.filter_cons, h, ih]

lemma filterMap_ite_some (p : β → Prop) [DecidablePred p] (f : β → γ) (l : List β) :
    (l.filterMap fun b => if p b then some (f b) else none) =
      (l.filter fun b => p b).map f := by
  induction l with
  | nil => rfl
  | cons a t ih =>
    by_cases h : p a <;> simp [List.filterMap_cons, List.filter_cons, h, ih]

lemma length_filter_enumFrom (p : β → Prop) [DecidablePred p] :
    ∀ (l : List β) (k : ℕ),
      ((List.enumFrom k l).filter fun q => p q.2).length =
        (l.filter fun b => p b).length := by
  intro l
  induction l with
  | nil => intro k; rfl
  | cons a t ih =>
    intro k
    by_cases h : p a <;> simp [List.enumFrom_cons, List.filter_cons, h, ih]

end ListLemmas

/-! ### Claim C1 -/

section ClaimC1

variable {α : Type} [LinearOrderedField α] [FloorRing α]

lemma individualDatasets_eq_filter (msin : α → α) (amps : List α) :
    individualDatasets msin amps =
      ((amps.enum.filter fun q : ℕ × α => ¬ (|q.2| < 0.001)).map fun q =>
        { color := COLORS.getD q.1 ""
          width := 2
          opacity := some 0.9
          dash := none
          data := X_VALUES.map fun x => (x, q.2 * msin ((q.1 + 1 : α) * x)) : Dataset α}) := by
  rw [individualDatasets]
  exact filterMap_ite_none _ _ _

lemma individualLegend_eq_filter (amps : List α) :
    individualLegend amps =
      ((amps.enum.filter fun q : ℕ × α => 0.001 < |q.2|).map fun q =>
        { color := COLORS.getD q.1 "", label := "n=" ++ toString (q.1 + 1) : LegendItem}) := by
  rw [individualLegend]
  exact filterMap_ite_some _ _ _

/-- C1 (amended): the individual-harmonics chart includes harmonic `i` exactly
when `0.001 ≤ |a[i]|` (the code tests `¬ (|a[i]| < 0.001)`), while the legend
and the active-harmonic count both use the strict comparison `0.001 < |a[i]|`;
the displayed count always equals the number of indices with `|a[i]| > 0.001`,
and the three decisions agree on every amplitude vector in which no entry has
magnitude exactly `0.001`. -/
theorem c1_threshold_counts (msin : α → α) (amps : List α) :
    (individualDatasets msin amps).length =
      (amps.filter fun a => (0.001 : α) ≤ |a|).length ∧
    (individualLegend amps).length =
      (amps.filter fun a => (0.001 : α) < |a|).length ∧
    activeCount amps = (amps.filter fun a => (0.001 : α) < |a|).length ∧
    ((∀ a ∈ amps, |a| ≠ (0.001 : α)) →
      (individualDatasets msin amps).length = activeCount amps ∧
      (individualLegend amps).length = activeCount amps) := by
  have hD : (individualDatasets msin amps).length =
      (amps.filter fun a => (0.001 : α) ≤ |a|).length := by
    rw [individualDatasets_eq_filter, List.length_map]
    rw [show amps.enum = List.enumFrom 0 amps from rfl,
      length_filter_enumFrom (fun a : α => ¬ (|a| < 0.001)) amps 0]
    exact congrArg List.length
      (List.filter_congr fun a _ => by simp [not_lt])
  have hL : (individualLegend amps).length =
      (amps.filter fun a => (0.001 : α) < |a|).length := by
    rw [individualLegend_eq_filter, List.length_map]
    rw [show amps.enum = List.enumFrom 0 amps from rfl,
      length_filter_enumFrom (fun a : α => 0.001 < |a|) amps 0]
  refine ⟨hD, hL, rfl, fun hne => ?_⟩
  have hfil : (amps.filter fun a => (0.001 : α) ≤ |a|) =
      (amps.filter fun a => (0.001 : α) < |a|) := by
    refine List.filter_congr fun a ha => ?_
    simp only [decide_eq_decide]
    exact ⟨fun h' => h'.lt_of_ne (Ne.symm (hne a ha)), le_of_lt⟩
  constructor
  · rw [hD, hfil]; rfl
  · rw [hL]; rfl

/-- C1 witness: the theorem applied to a concrete amplitude vector away from
the threshold boundary. -/
theorem c1_threshold_counts_witness :
    (individualDatasets (α := ℚ) (fun _ => 0) [1, 0, 0, 0, 0]).length =
      activeCount (α := ℚ) [1, 0, 0, 0, 0] :=
  ((c1_threshold_counts (fun _ => 0) [1, 0, 0, 0, 0]).2.2.2
    (by with_unfolding_all decide)).1

/-- C1 counterexample: at the amplitude vector `[0.001, 0, 0, 0, 0]` — whose
first entry has magnitude exactly `0.001` — the chart draws one harmonic while
the legend and the active count report none, so chart inclusion, legend
inclusion and the count do not all use the same strict comparison. -/
theorem c1_boundary_counterexample :
    (individualDatasets (α := ℚ) (fun _ => 0) [0.001, 0, 0, 0, 0]).length = 1 ∧
    (individualLegend (α := ℚ) [0.001, 0, 0, 0, 0]).length = 0 ∧
    activeCount (α := ℚ) [0.001, 0, 0, 0, 0] = 0 :=
  ⟨by with_unfolding_all decide, by with_unfolding_all decide,
    by with_unfolding_all decide⟩

end ClaimC1

/-! ### Claim C6 -/

section ClaimC6

variable {α : Type} [LinearOrderedField α] [FloorRing α] {β : Type}

lemma foldl_enumFrom_add (g : ℕ → β → α) (d : β) :
    ∀ (l : List β) (k : ℕ) (y : α),
      (List.enumFrom k l).foldl (fun acc q => acc + g q.1 q.2) y =
        y + ∑ j ∈ Finset.range l.length, g (k + j) (l.getD j d) := by
  intro l
  induction l with
  | nil => intro k y; simp
  | cons a t ih =>
    intro k y
    rw [List.enumFrom_cons, List.foldl_cons, ih (k + 1), List.length_cons,
      Finset.sum_range_succ']
    simp only [List.getD_cons_succ, List.getD_cons_zero, Nat.add_zero]
    have hidx : ∀ j ∈ Finset.range t.length,
        g (k + 1 + j) (t.getD j d) = g (k + (j + 1)) (t.getD j d) := by
      intro j _
      have : k + 1 + j = k + (j + 1) := by omega
      rw [this]
    rw [Finset.sum_congr rfl hidx]
    ring

lemma sumData_foldl_eq_sum (msin : α → α) (amps : List α) (h : amps.length = 5) (x : α) :
    amps.enum.foldl (fun (y : α) (q : ℕ × α) => y + q.2 * msin ((q.1 + 1 : α) * x)) 0 =
      ∑ j ∈ Finset.range 5, amps.getD j 0 * msin (((j : α) + 1) * x) := by
  have hmain := foldl_enumFrom_add (fun j a => a * msin (((j : α) + 1) * x)) 0 amps 0 0
  simpa [h] using hmain

/-- C6 (confirmed): exactly one sum dataset is produced no matter how many
amplitudes fall below the significance threshold; its sample list equals, in
grid order over the shared 501-point grid `xs i = (i / 500) * 2π`, the points
`(xs i, Σ_{j<5} a[j] * sin ((j+1) * xs i))`; and for the all-zero amplitude
vector every sample's ordinate is `0`. -/
theorem c6_sum_dataset :
    (∀ (msin : α → α) (amps : List α), (sumChartDatasets msin amps).length = 1) ∧
    (∀ (msin : α → α) (amps : List α), amps.length = 5 →
      (sumData msin amps).length = 501 ∧
      sumData msin amps = (List.range 501).map fun i : ℕ =>
        ((i : α) / 500 * 2 * MathPI,
          ∑ j ∈ Finset.range 5,
            amps.getD j 0 * msin (((j : α) + 1) * ((i : α) / 500 * 2 * MathPI)))) ∧
    (∀ (msin : α → α) (pt : α × α),
      pt ∈ sumData msin (List.replicate 5 (0 : α)) → pt.2 = 0) := by
  refine ⟨fun _ _ => rfl, fun msin amps h => ⟨?_, ?_⟩, fun msin pt hpt => ?_⟩
  · simp [sumData, X_VALUES, generateXValues, NUM_POINTS]
  · rw [sumData, X_VALUES, generateXValues, NUM_POINTS, List.map_map]
    refine List.map_congr_left fun i _ => ?_
    have hx : (i : α) / ((500 : ℕ) : α) * 2 * MathPI = (i : α) / 500 * 2 * MathPI := by
      norm_num
    simp only [Function.comp_apply, hx, sumData_foldl_eq_sum msin amps h]
  · rw [sumData] at hpt
    obtain ⟨x, -, rfl⟩ := List.mem_map.mp hpt
    have h5 : (List.replicate 5 (0 : α)).length = 5 := by simp
    show (List.replicate 5 (0 : α)).enum.foldl
      (fun (y : α) (q : ℕ × α) => y + q.2 * msin ((q.1 + 1 : α) * x)) 0 = 0
    rw [sumData_foldl_eq_sum msin _ h5 x]
    refine Finset.sum_eq_zero fun j hj => ?_
    have hz : (List.replicate 5 (0 : α)).getD j 0 = 0 := by
      rw [List.getD, List.get?_eq_getElem?, List.getElem?_replicate]
      split <;> rfl
    rw [hz, zero_mul]

/-- C6 witness: the sample-list length at a concrete sine stand-in and
amplitude vector. -/
theorem c6_sum_dataset_witness :
    (sumData (α := ℚ) (fun x => x) [1, 1, 1, 1, 1]).length = 501 :=
  ((c6_sum_dataset.2.1 (fun x => x) [1, 1, 1, 1, 1] (by decide)).1)

end ClaimC6

/-! ### Claim C7 -/

section ClaimC7

variable {α : Type} [LinearOrderedField α] [FloorRing α]

lemma joinAll_nil : joinAll [] = "" := rfl

lemma joinAll_cons (s : String) (t : List String) : joinAll (s :: t) = s ++ joinAll t := rfl

lemma eqParts_eq_filter (amps : List α) :
    eqParts amps =
      ((amps.enum.filter fun q : ℕ × α => (0.001 : α) ≤ |q.2|).map fun q : ℕ × α =>
        { sign := if q.2 < 0 then "−" else "+"
          coeff := if |q.2| = 1 then "" else toFixed2 (|q.2|)
          sinPart :=
            if q.1 + 1 = 1 then "sin(x)" else "sin(" ++ toString (q.1 + 1) ++ "x)"
          : EqPart}) := by
  rw [eqParts, filterMap_ite_none (fun q : ℕ × α => |q.2| < 0.001)
      (fun q : ℕ × α =>
        { sign := if q.2 < 0 then "−" else "+"
          coeff := if |q.2| = 1 then "" else toFixed2 (|q.2|)
          sinPart :=
            if q.1 + 1 = 1 then "sin(x)" else "sin(" ++ toString (q.1 + 1) ++ "x)"
          : EqPart}) amps.enum,
    show (amps.enum.filter fun q : ℕ × α => ¬ (|q.2| < 0.001)) =
        (amps.enum.filter fun q : ℕ × α => (0.001 : α) ≤ |q.2|) from
      List.filter_congr fun q _ => by simp [not_lt]]

lemma joinAll_enumFrom_tail :
    ∀ (l : List EqPart) (k : ℕ), k ≠ 0 →
      joinAll ((List.enumFrom k l).map fun q =>
        (if q.1 = 0 then (if q.2.sign = "−" then "−" else "")
          else " " ++ q.2.sign ++ " ") ++ q.2.coeff ++ q.2.sinPart) =
      joinAll (l.map fun p => " " ++ p.sign ++ " " ++ p.coeff ++ p.sinPart) := by
  intro l
  induction l with
  | nil => intro k _; rfl
  | cons p t ih =>
    intro k hk
    rw [List.enumFrom_cons, List.map_cons, List.map_cons, joinAll_cons, joinAll_cons,
      ih (k + 1) (Nat.succ_ne_zero k)]
    dsimp only
    rw [if_neg hk]

lemma firstRender_eq (q : ℕ × α) :
    (if (if q.2 < 0 then "−" else "+") = "−" then "−" else "") ++
      (if |q.2| = 1 then "" else toFixed2 (|q.2|)) ++
      (if q.1 + 1 = 1 then "sin(x)" else "sin(" ++ toString (q.1 + 1) ++ "x)") =
    (if q.2 < 0 then "−" else "") ++ specTermBody q.1 q.2 := by
  rw [specTermBody]
  by_cases hneg : q.2 < 0
  · rw [if_pos hneg, if_pos hneg, if_pos (show ("−" : String) = "−" from rfl),
      String.append_assoc]
  · rw [if_neg hneg, if_neg hneg, if_neg (show ¬ ("+" : String) = "−" by decide),
      String.append_assoc]

lemma tailRender_eq (p : ℕ × α) :
    " " ++ (if p.2 < 0 then "−" else "+") ++ " " ++
      (if |p.2| = 1 then "" else toFixed2 (|p.2|)) ++
      (if p.1 + 1 = 1 then "sin(x)" else "sin(" ++ toString (p.1 + 1) ++ "x)") =
    (if p.2 < 0 then " − " else " + ") ++ specTermBody p.1 p.2 := by
  rw [specTermBody]
  by_cases hneg : p.2 < 0
  · rw [if_pos hneg, if_pos hneg,
      show (" " ++ "−" ++ " " : String) = " − " from rfl, String.append_assoc]
  · rw [if_neg hneg, if_neg hneg,
      show (" " ++ "+" ++ " " : String) = " + " from rfl, String.append_assoc]

/-- C7 (amended): the equation formatter agrees with the specification's
format description in every respect, except that a harmonic contributes a term
exactly when `0.001 ≤ |a[i]|` (the code tests `¬ (|a[i]| < 0.001)`) rather
than the claimed strict `0.001 < |a[i]|`: the output is `"f(x) = "` followed
by one signed term per qualifying harmonic in ascending order, the
coefficient factor omitted exactly at magnitude 1, the first term's sign
leading with no leading `"+"`, later terms joined by `" + "` or `" − "`, and
exactly `"f(x) = 0"` when no term qualifies; the three examples of the claim
all hold. -/
theorem c7_equation_format :
    (∀ amps : List α, equationStr amps = specEquationStr amps) ∧
    equationStr (α := ℚ) [1, 0, -1, 0, 0] = "f(x) = sin(x) − sin(3x)" ∧
    equationStr (α := ℚ) [0, 0, 0, 0, 0] = "f(x) = 0" ∧
    equationStr (α := ℚ) [2, 0, 0, 0, 0] = "f(x) = 2.00sin(x)" := by
  refine ⟨?_, by with_unfolding_all decide, by with_unfolding_all decide,
    by with_unfolding_all decide⟩
  intro amps
  rw [equationStr, specEquationStr, eqParts_eq_filter]
  cases hq : amps.enum.filter fun q : ℕ × α => (0.001 : α) ≤ |q.2| with
  | nil => rfl
  | cons q rest =>
    simp only [specFormat]
    split
    · rw [List.map_cons, List.enum_cons, List.map_cons, joinAll_cons,
        joinAll_enumFrom_tail _ 1 one_ne_zero]
      simp only [List.map_map, Function.comp_def]
      dsimp only
      simp only [if_true, firstRender_eq, tailRender_eq]
      conv_rhs => rw [String.append_assoc]
    · rename_i hlen
      simp at hlen

end ClaimC7

/-- C7 counterexample: at the amplitude vector `[0.001, 0, 0, 0, 0]` no entry
satisfies the claimed strict threshold `|a| > 0.001` (the active count is 0),
so the claim requires the output to be exactly `"f(x) = 0"`; the formatter
instead includes the boundary harmonic and prints `"f(x) = 0.00sin(x)"`. -/
theorem c7_boundary_counterexample :
    equationStr (α := ℚ) [0.001, 0, 0, 0, 0] = "f(x) = 0.00sin(x)" ∧
    equationStr (α := ℚ) [0.001, 0, 0, 0, 0] ≠ "f(x) = 0" ∧
    activeCount (α := ℚ) [0.001, 0, 0, 0, 0] = 0 :=
  ⟨by with_unfolding_all decide, by with_unfolding_all decide,
    by with_unfolding_all decide⟩
